import Mathlib

/-!
Shallow embedding of `src/sql/uniques.h` (MariaDB duplicate-elimination
engine): the key descriptors, the `Unique_impl` state together with its
`unique_add` path, and the cost-model helpers.  Machine integers (`size_t`,
`uint`) are modelled as `Nat`, reduced modulo `2 ^ 64` (resp. `2 ^ 32`)
exactly where the C arithmetic can wrap.  Byte buffers (`uchar *`) are
modelled as `List Nat`.  The bodies of `Unique_impl::flush`, the
`Unique_impl` constructor and the external ordered-container service
(`TREE` / `tree_insert` of `my_tree`) are not part of the source header;
they are modelled from the spec and marked as such below.
-/

/-- Width of `size_t` arithmetic on the modelled (LP64) platform: `2 ^ 64`. -/
def SIZE_T_MOD : Nat := 18446744073709551616

/-- `sizeof(uint)` on the modelled platform. -/
def sizeof_uint : Nat := 4

/-- Modelled from the spec: `sizeof(TREE_ELEMENT)`, the per-node overhead of
the external ordered-container service (its header is not part of the
source): two node pointers plus a packed count/colour word on LP64. -/
def sizeof_TREE_ELEMENT : Nat := 24

/-- `Variable_size_keys_descriptor::size_of_length_field`
(src/sql/uniques.h:127). -/
def size_of_length_field : Nat := 4

/-- `uint4korr(p)`: little-endian read of a 4-byte unsigned integer from the
start of the buffer (external byte-order macro, modelled; `2 ^ 8`, `2 ^ 16`,
`2 ^ 24` written as decimal literals). -/
def uint4korr (p : List Nat) : Nat :=
  p.getD 0 0 + 256 * p.getD 1 0 + 65536 * p.getD 2 0 + 16777216 * p.getD 3 0

/-- `int4store(p, x)`: little-endian store of the low 32 bits of `x` into the
first four bytes of the buffer (external byte-order macro, modelled). -/
def int4store (p : List Nat) (x : Nat) : List Nat :=
  x % 256 :: x / 256 % 256 :: x / 65536 % 256 :: x / 16777216 % 256 :: p.drop 4

/-- `Variable_size_keys_descriptor::read_packed_length`
(src/sql/uniques.h:118-121): `size_of_length_field + uint4korr(p)`, computed
in 32-bit `uint` arithmetic (the function returns `uint`), so the sum wraps
modulo `2 ^ 32` when the stored prefix is at least `2 ^ 32 - 4`. -/
def read_packed_length (p : List Nat) : Nat :=
  (size_of_length_field + uint4korr p) % 4294967296

/-- `Variable_size_keys_descriptor::store_packed_length`
(src/sql/uniques.h:122-125): `int4store(p, sz - size_of_length_field)`, where
the subtraction is `uint` arithmetic (wraps modulo `2 ^ 32`; `sz` is a `uint`
value, i.e. below `2 ^ 32`). -/
def store_packed_length (p : List Nat) (sz : Nat) : List Nat :=
  int4store p ((sz + 4294967296 - size_of_length_field) % 4294967296)

/-- `Variable_size_keys_descriptor::get_length_of_key` (src/sql/uniques.h:106-109):
returns `read_packed_length(ptr)`. -/
def Variable_size_keys_descriptor.get_length_of_key (ptr : List Nat) : Nat :=
  read_packed_length ptr

/-- `Fixed_size_keys_descriptor` (src/sql/uniques.h:61-69): the only datum it
carries that its methods consult is the constant `key_length`. -/
structure Fixed_size_keys_descriptor where
  key_length : Nat

/-- `Fixed_size_keys_descriptor::get_length_of_key` (src/sql/uniques.h:66):
returns the constant `key_length`. -/
def Fixed_size_keys_descriptor.get_length_of_key
    (d : Fixed_size_keys_descriptor) (ptr : List Nat) : Nat :=
  d.key_length

/-- `Fixed_size_keys_descriptor::compare_keys` (src/sql/uniques.h:67): the
body in the source is literally `{ return 0; }`. -/
def Fixed_size_keys_descriptor.compare_keys
    (d : Fixed_size_keys_descriptor) (a b : List Nat) : Int :=
  0

/-- A caller-supplied total-order comparator over raw byte buffers
(lexicographic), of the kind the engine receives as `comp_func`
(src/sql/uniques.h:230); used to instantiate the tree comparator and to
witness what a delegating comparison would return. -/
def bytes_cmp : List Nat → List Nat → Int
  | [], [] => 0
  | [], _ :: _ => -1
  | _ :: _, [] => 1
  | a :: as, b :: bs =>
      if a < b then -1 else if b < a then 1 else bytes_cmp as bs

/-- The `TREE_ONLY_DUPS` mode bit of the external tree service (value from
its header, which is not part of the source; `close_for_expansion` assigns it
and `unique_add` tests it). -/
def TREE_ONLY_DUPS : Nat := 2

/-- Modelled from the spec: the external ordered-container service (`TREE` of
`my_tree`, spec section 6 "Ordered container service"), reduced to what the
source header consults: the mode `flag`, the per-element extra size
`size_of_element`, and the entries, each a key with its occurrence counter.
The placement of entries inside the container is not modelled; no claim
consults it. -/
structure TREE where
  flag : Nat
  size_of_element : Nat
  entries : List (List Nat × Nat)

/-- `tree.elements_in_tree`: the number of distinct entries currently held. -/
def TREE.elements_in_tree (t : TREE) : Nat := t.entries.length

/-- Whether some entry of the list has a key comparing equal to `key` under
the tree comparator. -/
def tree_find (cmp : List Nat → List Nat → Int) (key : List Nat) :
    List (List Nat × Nat) → Bool
  | [] => false
  | e :: es => cmp key e.1 == 0 || tree_find cmp key es

/-- Increment the occurrence counter of the first entry whose key compares
equal to `key`. -/
def tree_bump (cmp : List Nat → List Nat → Int) (key : List Nat) :
    List (List Nat × Nat) → List (List Nat × Nat)
  | [] => []
  | e :: es =>
      if cmp key e.1 == 0 then (e.1, e.2 + 1) :: es
      else e :: tree_bump cmp key es

/-- Modelled from the spec: the ordered-container insert
`tree_insert(&tree, ptr, size_arg, tree.custom_arg)` of the external tree
service (spec section 6): an equal key updates its occurrence counter in
place; in `TREE_ONLY_DUPS` mode an unmatched key is informational and the
tree does not grow (a non-null marker is returned); otherwise a new entry is
allocated — `none` models the `NULL` return of a node-allocation failure,
driven here by the `alloc_ok` oracle. -/
def tree_insert (cmp : List Nat → List Nat → Int) (t : TREE) (key : List Nat)
    (alloc_ok : Bool) : Option TREE :=
  if tree_find cmp key t.entries then
    some { t with entries := tree_bump cmp key t.entries }
  else if t.flag &&& TREE_ONLY_DUPS ≠ 0 then
    some t
  else if alloc_ok then
    some { t with entries := (key, 1) :: t.entries }
  else
    none

/-- The `Unique_impl` state (src/sql/uniques.h:170-193): the run directory
`file_ptrs`, the memory budget, the spill file (modelled as the list of bytes
written so far, so `my_b_tell` is its length), the tree, the element sizes
and the bookkeeping counters. -/
structure Unique_impl where
  file_ptrs : List Nat
  max_in_memory_size : Nat
  file : List Nat
  tree : TREE
  size : Nat
  full_size : Nat
  min_dupl_count : Nat
  with_counters : Bool
  memory_used : Nat
  elements : Nat

/-- `my_b_tell(&file)`: the current write position of the append-only spill
file (external I/O service; the file is modelled as the bytes written). -/
def my_b_tell (s : Unique_impl) : Nat := s.file.length

/-- `Unique_impl::is_in_memory` (src/sql/uniques.h:271):
`my_b_tell(&file) == 0`. -/
def is_in_memory (s : Unique_impl) : Bool := my_b_tell s == 0

/-- `Unique_impl::elements_in_tree` (src/sql/uniques.h:234):
`tree.elements_in_tree`. -/
def elements_in_tree (s : Unique_impl) : Nat := s.tree.elements_in_tree

/-- `Unique_impl::get_n_elements` (src/sql/uniques.h:223-226):
`is_in_memory() ? elements_in_tree() : elements`. -/
def get_n_elements (s : Unique_impl) : Nat :=
  if is_in_memory s then elements_in_tree s else s.elements

/-- `Unique_impl::space_left` (src/sql/uniques.h:199-203) with release-build
semantics: the `size_t` subtraction `max_in_memory_size - memory_used`,
which wraps modulo `2 ^ 64` when the asserted condition fails (the
`DBUG_ASSERT` compiles to nothing in release builds). -/
def space_left (s : Unique_impl) : Nat :=
  (s.max_in_memory_size % SIZE_T_MOD + SIZE_T_MOD - s.memory_used % SIZE_T_MOD)
    % SIZE_T_MOD

/-- The condition `DBUG_ASSERT(max_in_memory_size >= memory_used)` checked
(in debug builds) on every evaluation of `space_left`
(src/sql/uniques.h:201), on the `size_t` values. -/
def space_left_assertion (s : Unique_impl) : Prop :=
  s.memory_used % SIZE_T_MOD ≤ s.max_in_memory_size % SIZE_T_MOD

/-- `Unique_impl::is_full` (src/sql/uniques.h:206-211): false while the tree
is empty (at least one element is always inserted); otherwise
`record_size > space_left()`. -/
def is_full (s : Unique_impl) (record_size : Nat) : Bool :=
  if s.tree.elements_in_tree = 0 then false
  else decide (record_size > space_left s)

/-- `rec_size` as computed by `unique_add` (src/sql/uniques.h:254):
`size_arg + sizeof(TREE_ELEMENT) + tree.size_of_element`, in `size_t`
arithmetic. -/
def rec_size (s : Unique_impl) (size_arg : Nat) : Nat :=
  (size_arg + sizeof_TREE_ELEMENT + s.tree.size_of_element) % SIZE_T_MOD

/-- Modelled from the spec: one serialized element of a run — a fixed stride
of `full_size` bytes per element (key bytes, zero-padded, the optional
trailing counter not distinguished; spec section 6, on-disk run layout). -/
def write_elem (full_size : Nat) (key : List Nat) : List Nat :=
  (key ++ List.replicate full_size 0).take full_size

/-- Modelled from the spec: the bytes of one run — every entry of the current
tree, back to back (spec section 4.3, Flush algorithm). -/
def run_bytes (full_size : Nat) : List (List Nat × Nat) → List Nat
  | [] => []
  | e :: es => write_elem full_size e.1 ++ run_bytes full_size es

/-- Modelled from the spec: the state produced by a successful
`Unique_impl::flush` (declared at src/sql/uniques.h:196, body not in the
source; spec section 4.3, Flush algorithm): record the starting offset of
the run in the run directory, append the serialized tree to the spill file,
add the tree element count to the running `elements` counter, clear the tree
and reset `memory_used` to 0. -/
def flushed (s : Unique_impl) : Unique_impl :=
  { s with
    file_ptrs := s.file_ptrs ++ [my_b_tell s]
    file := s.file ++ run_bytes s.full_size s.tree.entries
    elements := s.elements + s.tree.elements_in_tree
    memory_used := 0
    tree := { s.tree with entries := [] } }

/-- Modelled from the spec: `Unique_impl::flush`; `io_ok` is the I/O oracle
and `none` models the failure return (spec section 4.3: a failed flush
invalidates the instance; no partial-run state is modelled). -/
def flush (s : Unique_impl) (io_ok : Bool) : Option Unique_impl :=
  if io_ok then some (flushed s) else none

/-- The flush step of `unique_add` (src/sql/uniques.h:256-257): `flush()` is
invoked exactly when the tree is not in `TREE_ONLY_DUPS` mode and
`is_full(rec_size)` holds; `none` is the `DBUG_RETURN(1)` path of a failed
flush. -/
def flush_phase (s : Unique_impl) (record_size : Nat) (io_ok : Bool) :
    Option Unique_impl :=
  if s.tree.flag &&& TREE_ONLY_DUPS == 0 && is_full s record_size then
    flush s io_ok
  else some s

/-- The insertion step of `unique_add` (src/sql/uniques.h:258-268):
`tree_insert`, then `rec_size` is charged to `memory_used` exactly when
`tree.elements_in_tree` changed; the returned flag is the C return value
`!res` (`true` = failure). -/
def insert_phase (cmp : List Nat → List Nat → Int) (s : Unique_impl)
    (key : List Nat) (record_size : Nat) (alloc_ok : Bool) :
    Bool × Unique_impl :=
  let count := s.tree.elements_in_tree
  match tree_insert cmp s.tree key alloc_ok with
  | none => (true, s)
  | some t =>
      let m :=
        if t.elements_in_tree ≠ count
        then (s.memory_used + record_size) % SIZE_T_MOD
        else s.memory_used
      (false, { s with tree := t, memory_used := m })

/-- `Unique_impl::unique_add(ptr, size_arg)` (src/sql/uniques.h:249-269).
`cmp` is the tree comparator, `alloc_ok` and `io_ok` the allocation and I/O
oracles of the external services; returns the C return value
(`true` = failure) together with the resulting state. -/
def unique_add (cmp : List Nat → List Nat → Int) (s : Unique_impl)
    (key : List Nat) (size_arg : Nat) (alloc_ok io_ok : Bool) :
    Bool × Unique_impl :=
  match flush_phase s (rec_size s size_arg) io_ok with
  | none => (true, s)
  | some s1 => insert_phase cmp s1 key (rec_size s size_arg) alloc_ok

/-- `Unique_impl::close_for_expansion` (src/sql/uniques.h:272):
`tree.flag= TREE_ONLY_DUPS`. -/
def close_for_expansion (s : Unique_impl) : Unique_impl :=
  { s with tree := { s.tree with flag := TREE_ONLY_DUPS } }

/-- Modelled from the spec: the `Unique_impl` constructor (declared at
src/sql/uniques.h:230-232, body not in the source): empty run directory and
spill file, empty tree with the `TREE_ONLY_DUPS` bit clear, `memory_used`
and `elements` zero; `full_size` is the key size plus room for the duplicate
counter exactly when `min_dupl_count` is nonzero (`with_counters`);
`size_of_element_arg` stands for the per-element extra size the tree service
reports. -/
def init_unique (size_arg max_in_memory_size_arg min_dupl_count_arg
    size_of_element_arg : Nat) : Unique_impl :=
  { file_ptrs := []
    max_in_memory_size := max_in_memory_size_arg % SIZE_T_MOD
    file := []
    tree := { flag := 0, size_of_element := size_of_element_arg, entries := [] }
    size := size_arg
    full_size := size_arg + (if min_dupl_count_arg ≠ 0 then 8 else 0)
    min_dupl_count := min_dupl_count_arg
    with_counters := min_dupl_count_arg ≠ 0
    memory_used := 0
    elements := 0 }

/-- One recorded `unique_add` call: key, `size_arg`, and the allocation and
I/O oracles of the external services for that call. -/
structure AddCall where
  key : List Nat
  size_arg : Nat
  alloc_ok : Bool
  io_ok : Bool

/-- Run a sequence of `unique_add` calls, threading the state. -/
def run_adds (cmp : List Nat → List Nat → Int) (s : Unique_impl) :
    List AddCall → Unique_impl
  | [] => s
  | c :: cs =>
      run_adds cmp (unique_add cmp s c.key c.size_arg c.alloc_ok c.io_ok).2 cs

/-- `ALIGN_SIZE(A)`, i.e. `MY_ALIGN(A, sizeof(double))`: round `A` up to a
multiple of 8 (external macro, modelled for LP64). -/
def ALIGN_SIZE (a : Nat) : Nat := (a + 7) / 8 * 8

/-- The C cast `(int)` applied to a `size_t` value: reduce modulo `2 ^ 32`
and map the upper half to negatives (two-complement wrap). -/
def int_of_size_t (v : Nat) : Int :=
  if v % 4294967296 < 2147483648 then ((v % 4294967296 : Nat) : Int)
  else ((v % 4294967296 : Nat) : Int) - 4294967296

/-- `Unique_impl::get_cost_calc_buff_size` (src/sql/uniques.h:286-295), with
the `size_t` computation reduced modulo `2 ^ 64` and the final `(int)` cast
modelled by `int_of_size_t`. -/
def get_cost_calc_buff_size (nkeys key_size max_in_memory_size : Nat) : Int :=
  let max_elems_in_tree :=
    max_in_memory_size / ALIGN_SIZE (sizeof_TREE_ELEMENT + key_size)
  let max_elems_in_tree :=
    if max_elems_in_tree = 0 then 1 else max_elems_in_tree
  int_of_size_t (sizeof_uint * (1 + nkeys / max_elems_in_tree) % SIZE_T_MOD)

/-- Scenario state: a fresh instance with memory budget 0, fixed key size 1,
no duplicate-count threshold, tree per-element extra size 8. -/
def oversize_s0 : Unique_impl := init_unique 1 0 0 8

/-- Scenario state: after admitting the first key `[0]` (size 1); its charged
size `1 + 24 + 8 = 33` alone exceeds the budget 0. -/
def oversize_s1 : Unique_impl :=
  (unique_add bytes_cmp oversize_s0 [0] 1 true true).2

/-- Scenario state: after a second `unique_add` of the distinct key `[1]`. -/
def oversize_s2 : Unique_impl :=
  (unique_add bytes_cmp oversize_s1 [1] 1 true true).2

/-- Scenario state: a fresh instance with memory budget 40 after admitting
key `[0]` (charged size 33, within budget; `space_left` is 7). -/
def budget40_s : Unique_impl :=
  (unique_add bytes_cmp (init_unique 1 40 0 8) [0] 1 true true).2

/-- Scenario state: `budget40_s` after `close_for_expansion`. -/
def dups_mode_s : Unique_impl := close_for_expansion budget40_s

/-- `tree_bump` preserves the number of entries: updating a duplicate in
place never changes `elements_in_tree`. -/
theorem tree_bump_length (cmp : List Nat → List Nat → Int) (key : List Nat)
    (es : List (List Nat × Nat)) : (tree_bump cmp key es).length = es.length := by
  induction es with
  | nil => rfl
  | cons e es ih =>
      simp only [tree_bump]
      split <;> simp [ih]

/-- The insertion step fails exactly when `tree_insert` returns null. -/
theorem insert_phase_fail_iff (cmp : List Nat → List Nat → Int)
    (s1 : Unique_impl) (key : List Nat) (rsz : Nat) (alloc_ok : Bool) :
    (insert_phase cmp s1 key rsz alloc_ok).1 = true ↔
      tree_insert cmp s1.tree key alloc_ok = none := by
  cases h : tree_insert cmp s1.tree key alloc_ok <;> simp [insert_phase, h]

/-- Case analysis of the insertion step of `unique_add`: on success, either
the tree grew by one entry and exactly `rec_size` was charged (and the key
matched no existing entry), or the tree and `memory_used` are unchanged. -/
theorem insert_phase_spec (cmp : List Nat → List Nat → Int) (s1 : Unique_impl)
    (key : List Nat) (rsz : Nat) (alloc_ok : Bool)
    (hok : (insert_phase cmp s1 key rsz alloc_ok).1 = false) :
    ((insert_phase cmp s1 key rsz alloc_ok).2.tree.elements_in_tree
          = s1.tree.elements_in_tree + 1 ∧
        (insert_phase cmp s1 key rsz alloc_ok).2.memory_used
          = (s1.memory_used + rsz) % SIZE_T_MOD ∧
        tree_find cmp key s1.tree.entries = false) ∨
      ((insert_phase cmp s1 key rsz alloc_ok).2.tree.elements_in_tree
          = s1.tree.elements_in_tree ∧
        (insert_phase cmp s1 key rsz alloc_ok).2.memory_used
          = s1.memory_used) := by
  by_cases hfind : tree_find cmp key s1.tree.entries = true
  · right
    have ht : tree_insert cmp s1.tree key alloc_ok
        = some { s1.tree with entries := tree_bump cmp key s1.tree.entries } := by
      simp [tree_insert, hfind]
    have hlen : ({ s1.tree with
        entries := tree_bump cmp key s1.tree.entries } : TREE).elements_in_tree
        = s1.tree.elements_in_tree := by
      simp [TREE.elements_in_tree, tree_bump_length]
    simp [insert_phase, ht, hlen]
  · have hfind' : tree_find cmp key s1.tree.entries = false := by
      simpa using hfind
    by_cases hdup : s1.tree.flag &&& TREE_ONLY_DUPS ≠ 0
    · right
      have ht : tree_insert cmp s1.tree key alloc_ok = some s1.tree := by
        simp [tree_insert, hfind', hdup]
      simp [insert_phase, ht]
    · cases halloc : alloc_ok with
      | false =>
          have ht : tree_insert cmp s1.tree key alloc_ok = none := by
            simp [tree_insert, hfind', hdup, halloc]
          have : (insert_phase cmp s1 key rsz alloc_ok).1 = true :=
            (insert_phase_fail_iff cmp s1 key rsz alloc_ok).mpr ht
          rw [this] at hok
          exact absurd hok (by simp)
      | true =>
          left
          have ht : tree_insert cmp s1.tree key true
              = some { s1.tree with entries := (key, 1) :: s1.tree.entries } := by
            simp [tree_insert, hfind', hdup]
          refine ⟨?_, ?_, hfind'⟩ <;>
            simp [insert_phase, halloc, ht, TREE.elements_in_tree]

/-- Reading back a 4-byte little-endian store recovers the low 32 bits. -/
theorem uint4korr_int4store (p : List Nat) (x : Nat) :
    uint4korr (int4store p x) = x % 4294967296 := by
  show x % 256 + 256 * (x / 256 % 256) + 65536 * (x / 65536 % 256)
      + 16777216 * (x / 16777216 % 256) = x % 4294967296
  omega

/-- The `(int)` cast is the identity on values below `2 ^ 31`. -/
theorem int_of_size_t_small (v : Nat) (h : v < 2147483648) :
    int_of_size_t v = (v : Int) := by
  unfold int_of_size_t
  rw [Nat.mod_eq_of_lt (by omega)]
  rw [if_pos h]

/-- In `TREE_ONLY_DUPS` mode a single `unique_add` call never touches the
spill file or the run directory and leaves the mode set. -/
theorem unique_add_only_dups_frame (cmp : List Nat → List Nat → Int)
    (s : Unique_impl) (key : List Nat) (size_arg : Nat) (alloc_ok io_ok : Bool)
    (h : s.tree.flag = TREE_ONLY_DUPS) :
    (unique_add cmp s key size_arg alloc_ok io_ok).2.file = s.file ∧
      (unique_add cmp s key size_arg alloc_ok io_ok).2.file_ptrs = s.file_ptrs ∧
      (unique_add cmp s key size_arg alloc_ok io_ok).2.tree.flag
        = TREE_ONLY_DUPS := by
  have hb : (s.tree.flag &&& TREE_ONLY_DUPS == 0
      && is_full s (rec_size s size_arg)) = false := by
    rw [h]
    have h2 : (TREE_ONLY_DUPS &&& TREE_ONLY_DUPS == 0) = false := by decide
    rw [h2, Bool.false_and]
  have hfp : flush_phase s (rec_size s size_arg) io_ok = some s := by
    simp [flush_phase, hb]
  have hu : unique_add cmp s key size_arg alloc_ok io_ok
      = insert_phase cmp s key (rec_size s size_arg) alloc_ok := by
    unfold unique_add
    rw [hfp]
  rw [hu]
  by_cases hfind : tree_find cmp key s.tree.entries = true
  · have ht : tree_insert cmp s.tree key alloc_ok
        = some { s.tree with entries := tree_bump cmp key s.tree.entries } := by
      simp [tree_insert, hfind]
    simp [insert_phase, ht, h]
  · have hfind' : tree_find cmp key s.tree.entries = false := by
      simpa using hfind
    have hd : s.tree.flag &&& TREE_ONLY_DUPS ≠ 0 := by
      rw [h]
      decide
    have ht : tree_insert cmp s.tree key alloc_ok = some s.tree := by
      simp [tree_insert, hfind', hd]
    simp [insert_phase, ht, h]

/-- In `TREE_ONLY_DUPS` mode a whole sequence of `unique_add` calls never
touches the spill file or the run directory and leaves the mode set. -/
theorem run_adds_only_dups_frame (cmp : List Nat → List Nat → Int)
    (calls : List AddCall) (s : Unique_impl)
    (h : s.tree.flag = TREE_ONLY_DUPS) :
    (run_adds cmp s calls).file = s.file ∧
      (run_adds cmp s calls).file_ptrs = s.file_ptrs ∧
      (run_adds cmp s calls).tree.flag = TREE_ONLY_DUPS := by
  induction calls generalizing s with
  | nil => exact ⟨rfl, rfl, h⟩
  | cons c cs ih =>
      obtain ⟨h1, h2, h3⟩ :=
        unique_add_only_dups_frame cmp s c.key c.size_arg c.alloc_ok c.io_ok h
      obtain ⟨g1, g2, g3⟩ :=
        ih (unique_add cmp s c.key c.size_arg c.alloc_ok c.io_ok).2 h3
      simp only [run_adds]
      exact ⟨g1.trans h1, g2.trans h2, g3⟩

/-- Claim C1: the memory-bound invariant fails on the code.  With budget 0,
two successful `unique_add` calls with distinct keys leave the tree holding
two elements and `memory_used = 66` above the budget, with no flush ever
triggered (empty run directory, untouched spill file): the second call was
admitted without a flush because the wrapped `size_t` subtraction in
`space_left` made `is_full` false, so the claimed
at-most-one-over-budget-element exception does not hold. -/
theorem memory_bound_violated :
    oversize_s2.file_ptrs = [] ∧
      my_b_tell oversize_s2 = 0 ∧
      oversize_s2.tree.elements_in_tree = 2 ∧
      oversize_s2.max_in_memory_size < oversize_s2.memory_used := by
  decide

/-- Claim C10: the `space_left` assertion is not valid.  In state
`oversize_s1` (budget 0, one unconditionally admitted element of charged
size 33) a further `unique_add` does evaluate `space_left` — the tree is
non-empty and not in `TREE_ONLY_DUPS` mode — yet `memory_used` exceeds
`max_in_memory_size`, so the `DBUG_ASSERT` condition is false and the
release-build subtraction wraps (the wrapped `space_left` even exceeds the
budget itself). -/
theorem space_left_assertion_violated :
    oversize_s1.tree.flag &&& TREE_ONLY_DUPS = 0 ∧
      oversize_s1.tree.elements_in_tree ≠ 0 ∧
      ¬ space_left_assertion oversize_s1 ∧
      oversize_s1.max_in_memory_size < space_left oversize_s1 := by
  unfold space_left_assertion
  decide

/-- Claim C2 counterexample: a `unique_add` call on a non-empty tree whose
record size exceeds `space_left` but which is in `TREE_ONLY_DUPS` mode (after
`close_for_expansion`) performs no flush at all: in the concrete state
`dups_mode_s` (one element of charged size 33, budget 40, `space_left` 7),
adding the distinct key `[5]` of charged size 33 succeeds while run
directory and spill file stay empty. -/
theorem unique_add_no_flush_in_dups_mode :
    dups_mode_s.tree.elements_in_tree ≠ 0 ∧
      rec_size dups_mode_s 1 > space_left dups_mode_s ∧
      (unique_add bytes_cmp dups_mode_s [5] 1 true true).1 = false ∧
      (unique_add bytes_cmp dups_mode_s [5] 1 true true).2.file_ptrs = [] ∧
      (unique_add bytes_cmp dups_mode_s [5] 1 true true).2.file = [] := by
  decide

/-- Claim C2 (amended): for every `unique_add` call where the tree is not in
`TREE_ONLY_DUPS` mode, already holds at least one element, and the record
size exceeds `space_left` (with I/O succeeding), the current tree is flushed
— the run start offset is recorded, the serialized non-empty tree is
appended to the spill file, the tree is emptied — and only then is the key
inserted, into the flushed state. -/
theorem unique_add_flush_before_insert (cmp : List Nat → List Nat → Int)
    (s : Unique_impl) (key : List Nat) (size_arg : Nat) (alloc_ok : Bool)
    (hmode : s.tree.flag &&& TREE_ONLY_DUPS = 0)
    (hne : s.tree.elements_in_tree ≠ 0)
    (hfull : rec_size s size_arg > space_left s) :
    unique_add cmp s key size_arg alloc_ok true
        = insert_phase cmp (flushed s) key (rec_size s size_arg) alloc_ok ∧
      (flushed s).file_ptrs = s.file_ptrs ++ [my_b_tell s] ∧
      (flushed s).file = s.file ++ run_bytes s.full_size s.tree.entries ∧
      (flushed s).tree.entries = [] ∧
      1 ≤ s.tree.elements_in_tree := by
  have hisfull : is_full s (rec_size s size_arg) = true := by
    unfold is_full
    rw [if_neg hne]
    exact decide_eq_true hfull
  have hfp : flush_phase s (rec_size s size_arg) true = some (flushed s) := by
    unfold flush_phase
    rw [hmode]
    simp [hisfull, flush]
  refine ⟨?_, rfl, rfl, rfl, Nat.one_le_iff_ne_zero.mpr hne⟩
  unfold unique_add
  rw [hfp]

/-- Claim C2 witness: in the concrete state `budget40_s` (one element of
charged size 33, budget 40, `space_left` 7, mode bit clear), adding the
distinct key `[1]` of charged size 33 flushes first and then inserts into
the flushed state. -/
theorem unique_add_flush_before_insert_witness :
    budget40_s.tree.flag &&& TREE_ONLY_DUPS = 0 ∧
      budget40_s.tree.elements_in_tree ≠ 0 ∧
      rec_size budget40_s 1 > space_left budget40_s ∧
      unique_add bytes_cmp budget40_s [1] 1 true true
        = insert_phase bytes_cmp (flushed budget40_s) [1]
            (rec_size budget40_s 1) true :=
  ⟨by decide, by decide, by decide,
    (unique_add_flush_before_insert bytes_cmp budget40_s [1] 1 true
      (by decide) (by decide) (by decide)).1⟩

/-- Claim C3: duplicate adds do not change memory accounting.  Relative to
the state `s1` in which the insertion of a successful `unique_add` call runs
(the state after the possible flush of that same call), either the tree grew
by one entry and exactly `rec_size` — the key length plus
`sizeof(TREE_ELEMENT) + tree.size_of_element` — was charged to
`memory_used`, and then the key matched no existing entry; or the key was
not a new entry (`elements_in_tree` unchanged) and `memory_used` is left
exactly unchanged. -/
theorem unique_add_memory_charge (cmp : List Nat → List Nat → Int)
    (s s1 : Unique_impl) (key : List Nat) (size_arg : Nat)
    (alloc_ok io_ok : Bool)
    (hf : flush_phase s (rec_size s size_arg) io_ok = some s1)
    (hok : (unique_add cmp s key size_arg alloc_ok io_ok).1 = false) :
    ((unique_add cmp s key size_arg alloc_ok io_ok).2.tree.elements_in_tree
          = s1.tree.elements_in_tree + 1 ∧
        (unique_add cmp s key size_arg alloc_ok io_ok).2.memory_used
          = (s1.memory_used + rec_size s size_arg) % SIZE_T_MOD ∧
        tree_find cmp key s1.tree.entries = false) ∨
      ((unique_add cmp s key size_arg alloc_ok io_ok).2.tree.elements_in_tree
          = s1.tree.elements_in_tree ∧
        (unique_add cmp s key size_arg alloc_ok io_ok).2.memory_used
          = s1.memory_used) := by
  have hu : unique_add cmp s key size_arg alloc_ok io_ok
      = insert_phase cmp s1 key (rec_size s size_arg) alloc_ok := by
    unfold unique_add
    rw [hf]
  rw [hu] at hok ⊢
  exact insert_phase_spec cmp s1 key (rec_size s size_arg) alloc_ok hok

/-- Claim C3 witness: on a fresh instance with budget 100, adding key `[3]`
(charged size 33) is a new entry: the tree grows from 0 to 1 and exactly 33
bytes are charged. -/
theorem unique_add_memory_charge_witness :
    flush_phase (init_unique 1 100 0 8) (rec_size (init_unique 1 100 0 8) 1)
        true = some (init_unique 1 100 0 8) ∧
      (unique_add bytes_cmp (init_unique 1 100 0 8) [3] 1 true true).1
        = false ∧
      (((unique_add bytes_cmp (init_unique 1 100 0 8) [3] 1 true
                true).2.tree.elements_in_tree
            = (init_unique 1 100 0 8).tree.elements_in_tree + 1 ∧
          (unique_add bytes_cmp (init_unique 1 100 0 8) [3] 1 true
                true).2.memory_used
            = ((init_unique 1 100 0 8).memory_used
                + rec_size (init_unique 1 100 0 8) 1) % SIZE_T_MOD ∧
          tree_find bytes_cmp [3] (init_unique 1 100 0 8).tree.entries
            = false) ∨
        ((unique_add bytes_cmp (init_unique 1 100 0 8) [3] 1 true
              true).2.tree.elements_in_tree
            = (init_unique 1 100 0 8).tree.elements_in_tree ∧
          (unique_add bytes_cmp (init_unique 1 100 0 8) [3] 1 true
              true).2.memory_used
            = (init_unique 1 100 0 8).memory_used)) :=
  ⟨rfl, rfl,
    unique_add_memory_charge bytes_cmp (init_unique 1 100 0 8)
      (init_unique 1 100 0 8) [3] 1 true true rfl rfl⟩

/-- Claim C4 counterexample: `Fixed_size_keys_descriptor::compare_keys` does
not delegate to the caller-supplied comparator: at the concrete buffers
`[0]` and `[1]`, which the caller comparator `bytes_cmp` orders strictly
(result `-1`, nonzero), `compare_keys` of the descriptor with `key_length`
1 returns `0`. -/
theorem fixed_compare_keys_not_delegated :
    Fixed_size_keys_descriptor.compare_keys ⟨1⟩ [0] [1] = 0 ∧
      bytes_cmp [0] [1] ≠ 0 := by
  exact ⟨rfl, by decide⟩

/-- Claim C4 (amended): for the Fixed-Size descriptor, `compare_keys(a, b)`
returns `0` for all key buffers and all descriptors — the body is literally
`return 0`; it does not consult the caller-supplied comparator (fixed-size
tree placement instead uses the comparator handed to the `Unique_impl`
constructor). -/
theorem fixed_compare_keys_eq_zero (d : Fixed_size_keys_descriptor)
    (a b : List Nat) : Fixed_size_keys_descriptor.compare_keys d a b = 0 :=
  rfl

/-- Claim C5: `get_n_elements()` returns `elements_in_tree()` exactly when
`is_in_memory()` holds and the running `elements` counter otherwise;
`is_in_memory()` holds exactly when the spill file has never been written to
(its write position is 0, i.e. the append-only file is empty); and each
flush accumulates the flushed tree size into the running `elements`
counter. -/
theorem get_n_elements_split (s : Unique_impl) :
    get_n_elements s
        = (if is_in_memory s then elements_in_tree s else s.elements) ∧
      (is_in_memory s = true ↔ s.file = []) ∧
      (flushed s).elements = s.elements + elements_in_tree s := by
  refine ⟨rfl, ?_, rfl⟩
  simp [is_in_memory, my_b_tell, List.length_eq_zero]

/-- Claim C6 counterexample: `get_length_of_key` does not always return 4
plus the stored payload length: at the concrete byte buffer
`[252, 255, 255, 255]` the 4-byte little-endian prefix stores the payload
length `4294967292 = 2 ^ 32 - 4`, and the `uint` sum
`4 + 4294967292 = 2 ^ 32` wraps, so the function returns `0`, not
`4 + 4294967292`. -/
theorem get_length_of_key_wraps :
    Variable_size_keys_descriptor.get_length_of_key [252, 255, 255, 255]
        = 0 ∧
      uint4korr [252, 255, 255, 255] = 4294967292 ∧
      (0 : Nat) ≠ size_of_length_field + 4294967292 := by
  decide

/-- Claim C6 (amended): variable-key length round-trip, in 32-bit `uint`
arithmetic: `get_length_of_key(ptr)` returns 4 plus the payload length
stored in the 4-byte prefix at `ptr` whenever that sum is below `2 ^ 32`
(it wraps modulo `2 ^ 32` otherwise), and for every buffer `p` and every
total size `sz` with `4 ≤ sz < 2 ^ 32`, `read_packed_length` after
`store_packed_length(p, sz)` returns exactly `sz`. -/
theorem read_store_packed_length_round_trip (p : List Nat) (sz : Nat)
    (h4 : 4 ≤ sz) (h32 : sz < 4294967296) :
    (∀ q : List Nat,
        size_of_length_field + uint4korr q < 4294967296 →
          Variable_size_keys_descriptor.get_length_of_key q
            = size_of_length_field + uint4korr q) ∧
      read_packed_length (store_packed_length p sz) = sz := by
  refine ⟨fun q hq => Nat.mod_eq_of_lt hq, ?_⟩
  unfold store_packed_length read_packed_length
  rw [uint4korr_int4store]
  unfold size_of_length_field
  omega

/-- Claim C6 witness: storing total size 9 and reading it back through the
4-byte little-endian prefix yields 9 again. -/
theorem read_store_packed_length_round_trip_witness :
    4 ≤ 9 ∧ 9 < 4294967296 ∧
      read_packed_length (store_packed_length [0, 0, 0, 0, 0] 9) = 9 :=
  ⟨by decide, by decide,
    (read_store_packed_length_round_trip [0, 0, 0, 0, 0] 9 (by decide)
        (by decide)).2⟩

/-- Claim C7 counterexample: the sizing formula is not exact for every
`nkeys`: at `nkeys = 2 ^ 62`, `key_size = 0`, `max_in_memory_size = 0` (so
`max_elems_in_tree = 1`), the `size_t` product `4 * (1 + 2 ^ 62)` wraps
modulo `2 ^ 64` and the function returns `4`, not the exact value
`sizeof(uint) * (1 + nkeys / max_elems_in_tree)`. -/
theorem get_cost_calc_buff_size_overflow :
    get_cost_calc_buff_size 4611686018427387904 0 0 = 4 ∧
      ((sizeof_uint * (1 + 4611686018427387904 / 1) : Nat) : Int) ≠ 4 := by
  exact ⟨by decide, by decide⟩

/-- Claim C7 (amended): whenever the product does not overflow — that is,
`sizeof(uint) * (1 + nkeys / max_elems_in_tree) < 2 ^ 31` with
`max_elems_in_tree = max(1, max_in_memory_size /
ALIGN_SIZE(sizeof(TREE_ELEMENT) + key_size))` — `get_cost_calc_buff_size`
returns exactly that product, all divisions truncating. -/
theorem get_cost_calc_buff_size_formula (nkeys key_size mm : Nat)
    (h : sizeof_uint * (1 + nkeys
          / max 1 (mm / ALIGN_SIZE (sizeof_TREE_ELEMENT + key_size)))
        < 2147483648) :
    get_cost_calc_buff_size nkeys key_size mm
      = ((sizeof_uint * (1 + nkeys
            / max 1 (mm / ALIGN_SIZE (sizeof_TREE_ELEMENT + key_size)))
          : Nat) : Int) := by
  have hmax : (if mm / ALIGN_SIZE (sizeof_TREE_ELEMENT + key_size) = 0 then 1
      else mm / ALIGN_SIZE (sizeof_TREE_ELEMENT + key_size))
      = max 1 (mm / ALIGN_SIZE (sizeof_TREE_ELEMENT + key_size)) := by
    rcases Nat.eq_zero_or_pos (mm / ALIGN_SIZE (sizeof_TREE_ELEMENT + key_size))
      with h0 | h0
    · rw [h0]
      decide
    · rw [if_neg (Nat.pos_iff_ne_zero.mp h0)]
      exact (Nat.max_eq_right h0).symm
  have h64 : sizeof_uint * (1 + nkeys
      / max 1 (mm / ALIGN_SIZE (sizeof_TREE_ELEMENT + key_size)))
      < SIZE_T_MOD :=
    lt_trans h (by unfold SIZE_T_MOD; decide)
  simp only [get_cost_calc_buff_size, hmax]
  rw [Nat.mod_eq_of_lt h64]
  exact int_of_size_t_small _ h

/-- Claim C7 witness: at `nkeys = 1000`, `key_size = 16`,
`max_in_memory_size = 10000` the formula value is `4 * 5 = 20`, below
`2 ^ 31`, and the function returns it exactly. -/
theorem get_cost_calc_buff_size_formula_witness :
    sizeof_uint * (1 + 1000
          / max 1 (10000 / ALIGN_SIZE (sizeof_TREE_ELEMENT + 16)))
        < 2147483648 ∧
      get_cost_calc_buff_size 1000 16 10000
        = ((sizeof_uint * (1 + 1000
              / max 1 (10000 / ALIGN_SIZE (sizeof_TREE_ELEMENT + 16)))
            : Nat) : Int) :=
  ⟨by decide, get_cost_calc_buff_size_formula 1000 16 10000 (by decide)⟩

/-- Claim C8: `unique_add` returns failure exactly when the triggered
pre-insert flush fails (the flush condition held and the I/O oracle said
no), or the flush step went through and `tree_insert` returned null
(allocation failure); in every other case — key inserted, duplicate
matched, or informational miss in `TREE_ONLY_DUPS` mode — it returns
success. -/
theorem unique_add_fail_iff (cmp : List Nat → List Nat → Int)
    (s : Unique_impl) (key : List Nat) (size_arg : Nat)
    (alloc_ok io_ok : Bool) :
    (unique_add cmp s key size_arg alloc_ok io_ok).1 = true ↔
      ((s.tree.flag &&& TREE_ONLY_DUPS == 0
            && is_full s (rec_size s size_arg)) = true ∧ io_ok = false) ∨
        (∃ s1, flush_phase s (rec_size s size_arg) io_ok = some s1 ∧
          tree_insert cmp s1.tree key alloc_ok = none) := by
  by_cases hb : (s.tree.flag &&& TREE_ONLY_DUPS == 0
      && is_full s (rec_size s size_arg)) = true
  · cases io_ok with
    | false =>
        have hfp : flush_phase s (rec_size s size_arg) false = none := by
          unfold flush_phase flush
          rw [if_pos hb]
          rfl
        simp [unique_add, hfp, hb]
    | true =>
        have hfp : flush_phase s (rec_size s size_arg) true
            = some (flushed s) := by
          unfold flush_phase flush
          rw [if_pos hb]
          rfl
        simp [unique_add, hfp, insert_phase_fail_iff]
  · have hfp : flush_phase s (rec_size s size_arg) io_ok = some s := by
      unfold flush_phase
      rw [if_neg hb]
    simp [unique_add, hfp, insert_phase_fail_iff, hb]

/-- Claim C9: once `close_for_expansion` has put the tree into
`TREE_ONLY_DUPS` mode, no sequence of subsequent `unique_add` calls ever
flushes, whatever the keys, sizes, oracle outcomes and however far
`memory_used` exceeds the budget in the start state `s`: the spill file and
the run directory stay exactly as they were, and the mode persists. -/
theorem no_flush_after_close_for_expansion (cmp : List Nat → List Nat → Int)
    (s : Unique_impl) (calls : List AddCall) :
    (run_adds cmp (close_for_expansion s) calls).file = s.file ∧
      (run_adds cmp (close_for_expansion s) calls).file_ptrs = s.file_ptrs ∧
      (run_adds cmp (close_for_expansion s) calls).tree.flag
        = TREE_ONLY_DUPS := by
  have h := run_adds_only_dups_frame cmp calls (close_for_expansion s) rfl
  exact ⟨h.1, h.2.1, h.2.2⟩
